import Mathlib

/-!
Shallow embedding of `src/backend/langflow/graph/graph/base.py` (the `Graph`
class): node/edge construction, edge linking, LLM-parameter injection,
invalid-node pruning, and the query operations.  External collaborators that
are part of the repository but not of this file (the `Node`/`Edge` entity
classes, the `NODE_TYPE_MAP` table, the `FILE_TOOLS` set, the per-node
`_build_params` step) are modelled from the spec; the pipeline logic itself is
translated line by line from the source.  Python `dict` key access that can
raise `KeyError` is embedded as `Except`; Python object identity of `Node`
instances is embedded as the node's index in the construction-order node list.
-/

namespace Langflow

/-- Modelled from the spec: the fixed taxonomy of node roles.  The source
dispatches to the external classes `FileToolNode`, `LLMNode`, `ToolkitNode`
or the plain `Node` base class; the spec names these variants Generic,
FileTool, LanguageModel and Toolkit. -/
inductive NodeVariant where
  | Generic
  | FileTool
  | LanguageModel
  | Toolkit
deriving DecidableEq, Repr

/-- The mapping stored under the `template` key of a NodeSpec's `data.node`
value.  The only key the source reads is `_type` (optional: absence raises
`KeyError` on access). -/
structure TemplateSpec where
  /-- The `_type` key (the "language-chain type" fallback string). -/
  t_type : Option String
deriving DecidableEq, Repr

/-- The mapping stored under the `node` key of a NodeSpec's `data` value. -/
structure NodeInfoSpec where
  template : Option TemplateSpec
  base_classes : Option (List String)
deriving DecidableEq, Repr

/-- The mapping stored under the `data` key of a NodeSpec. -/
structure NodeDataSpec where
  /-- The `type` key. -/
  type_ : Option String
  /-- The `node` key. -/
  node : Option NodeInfoSpec
deriving DecidableEq, Repr

/-- Modelled from the spec: a NodeSpec is a mapping with at least `id`
(a string) and `data` (a nested mapping); the `data` key may still be absent
at the Python level, which the `Option` records. -/
structure NodeSpec where
  id : String
  data : Option NodeDataSpec
deriving DecidableEq, Repr

/-- An EdgeSpec: a mapping with `source` and `target` node-id strings. -/
structure EdgeSpec where
  source : String
  target : String
deriving DecidableEq, Repr

/-- A constructed Edge.  The source stores references to the two live `Node`
objects; the embedding stores their indices in the construction-order node
list, which is the same identity. -/
structure Edge where
  source : Nat
  target : Nat
deriving DecidableEq, Repr

/-- A value stored in a node's `params` mapping: either some opaque payload
put there by the node's own `_build_params`, or a reference to a live node
(the injected LLM node), embedded as that node's index. -/
inductive PVal where
  | payload (s : String)
  | nodeRef (i : Nat)
deriving DecidableEq, Repr

/-- A node's `params` mapping, as an insertion-ordered association list
(Python `dict` semantics). -/
abbrev Params := List (String × PVal)

/-- Modelled from the spec: a constructed Node holds its identity, the
original `data` mapping, its variant role fixed at construction, the mutable
`params` mapping and its growing collection of incident edges. -/
structure Node where
  id : String
  data : NodeDataSpec
  variant : NodeVariant
  params : Params
  edges : List Edge
deriving DecidableEq, Repr

/-- Errors raised during graph construction: Python `KeyError` on a missing
mapping key, and the two distinct `ValueError`s of `_build_edges`, each
naming the missing id. -/
inductive GraphError where
  | keyError (key : String)
  | sourceNotFound (id : String)
  | targetNotFound (id : String)
deriving DecidableEq, Repr

/-- Source `Graph._get_node_class`: dispatch from the declared `node_type` string
and the fallback `node_lc_type` string to a variant.  `FILE_TOOLS` and
`NODE_TYPE_MAP` are external lookup data supplied by the surrounding
application, so they are parameters here. -/
def get_node_class (fileTools : List String)
    (typeMap : List (String × NodeVariant))
    (node_type node_lc_type : String) : NodeVariant :=
  if node_type ∈ fileTools then
    NodeVariant.FileTool
  else
    match typeMap.lookup node_type with
    | some v => v
    | none =>
      match typeMap.lookup node_lc_type with
      | some v => v
      | none => NodeVariant.Generic

/-- The per-NodeSpec body of `Graph._build_nodes`: read `data`, `data.type`
and `data.node.template._type` (each raw access raising `KeyError` when the
key is absent, in source order), dispatch, and construct the Node.  The Node
constructor itself is modelled from the spec: identity and the `data`
mapping are retained, `params` starts empty and edges are linked later. -/
def build_node (fileTools : List String) (typeMap : List (String × NodeVariant))
    (spec : NodeSpec) : Except GraphError Node :=
  match spec.data with
  | none => .error (.keyError "data")
  | some node_data =>
    match node_data.type_ with
    | none => .error (.keyError "type")
    | some node_type =>
      match node_data.node with
      | none => .error (.keyError "node")
      | some info =>
        match info.template with
        | none => .error (.keyError "template")
        | some tmpl =>
          match tmpl.t_type with
          | none => .error (.keyError "_type")
          | some node_lc_type =>
            .ok { id := spec.id
                  data := node_data
                  variant := get_node_class fileTools typeMap node_type node_lc_type
                  params := []
                  edges := [] }

/-- Source `Graph._build_nodes`: build one Node per NodeSpec in input order, the
first failure aborting construction. -/
def build_nodes (fileTools : List String) (typeMap : List (String × NodeVariant)) :
    List NodeSpec → Except GraphError (List Node)
  | [] => .ok []
  | spec :: rest =>
    match build_node fileTools typeMap spec with
    | .error e => .error e
    | .ok n =>
      match build_nodes fileTools typeMap rest with
      | .error e => .error e
      | .ok ns => .ok (n :: ns)

/-- First index of a node with the given id in a node list.  `Graph.get_node`
returns the first matching live `Node`; under the index-as-identity embedding
the edge builder records that node's index. -/
def find_node_idx (nodes : List Node) (node_id : String) : Option Nat :=
  match nodes with
  | [] => none
  | n :: rest =>
    if n.id = node_id then some 0
    else (find_node_idx rest node_id).map (· + 1)

/-- Source `Graph._build_edges`: resolve each EdgeSpec's `source` and `target` ids
over the just-built node list (source checked first), raising a distinct
error naming the missing id when a lookup fails; otherwise construct the
Edge. -/
def build_edges (nodes : List Node) : List EdgeSpec → Except GraphError (List Edge)
  | [] => .ok []
  | e :: rest =>
    match find_node_idx nodes e.source with
    | none => .error (.sourceNotFound e.source)
    | some s =>
      match find_node_idx nodes e.target with
      | none => .error (.targetNotFound e.target)
      | some t =>
        match build_edges nodes rest with
        | .error err => .error err
        | .ok es => .ok (⟨s, t⟩ :: es)

/-- Replace the element at an index, leaving the list unchanged when the
index is out of range (which linking never hits for well-formed edges). -/
def modify_at (l : List Node) (i : Nat) (f : Node → Node) : List Node :=
  match l, i with
  | [], _ => []
  | x :: xs, 0 => f x :: xs
  | x :: xs, n + 1 => x :: modify_at xs n f

/-- Modelled from the spec: `Node.add_edge` appends the edge to the node's
incident-edge collection. -/
def add_edge_to (nodes : List Node) (i : Nat) (e : Edge) : List Node :=
  modify_at nodes i (fun n => { n with edges := n.edges ++ [e] })

/-- The edge-linking loop of `Graph._build_graph`: for every edge, append it
to both its source's and its target's edge collection (a self-loop is
appended twice, once for each endpoint role). -/
def link_edges (nodes : List Node) (edges : List Edge) : List Node :=
  edges.foldl (fun ns e => add_edge_to (add_edge_to ns e.source e) e.target e) nodes

/-- Python `dict` assignment `d[k] = v` on an insertion-ordered association
list: overwrite in place when the key exists, else append. -/
def insert_param (ps : Params) (k : String) (v : PVal) : Params :=
  match ps with
  | [] => [(k, v)]
  | (k1, v1) :: rest =>
    if k1 = k then (k, v) :: rest else (k1, v1) :: insert_param rest k v

/-- First value stored under a key in a `params` mapping. -/
def lookup_param (ps : Params) (k : String) : Option PVal :=
  match ps with
  | [] => none
  | (k1, v1) :: rest => if k1 = k then some v1 else lookup_param rest k

/-- The index of the last element satisfying `p`, mirroring the source loop
that keeps overwriting `llm_node` so that the last match in list order
wins. -/
def last_idx_where (p : Node → Bool) : List Node → Option Nat
  | [] => none
  | n :: rest =>
    match last_idx_where p rest with
    | some j => some (j + 1)
    | none => if p n then some 0 else none

/-- Whether a node was dispatched to the LanguageModel variant
(the source's `isinstance(node, LLMNode)`, modelled from the spec as a
variant-tag test). -/
def is_llm (n : Node) : Bool := n.variant = NodeVariant.LanguageModel

/-- Whether a node was dispatched to the Toolkit variant
(the source's `isinstance(node, ToolkitNode)`). -/
def is_toolkit (n : Node) : Bool := n.variant = NodeVariant.Toolkit

/-- Source `Graph._build_node_params`: run every node's own `_build_params` (opaque
to this fragment, so modelled from the spec as a caller-supplied function
`bp` from the node to its built `params`) while tracking the last
LanguageModel node in list order; if one was found, store it under the fixed
key `"llm"` in every Toolkit node's `params`. -/
def build_node_params (bp : Node → Params) (nodes : List Node) : List Node :=
  let ns := nodes.map (fun n => { n with params := bp n })
  match last_idx_where is_llm ns with
  | none => ns
  | some llm =>
    ns.map (fun n =>
      if is_toolkit n then { n with params := insert_param n.params "llm" (.nodeRef llm) }
      else n)

/-- The graph: the full node list and edge list, both owned. -/
structure Graph where
  nodes : List Node
  edges : List Edge
deriving DecidableEq, Repr

/-- Source `Graph._validate_node`: all nodes that do not have edges are invalid. -/
def validate_node (n : Node) : Bool := decide (0 < n.edges.length)

/-- Source `Graph._remove_invalid_nodes`: keep the nodes that validate, or every
node when the (pre-pruning) graph has exactly one node and zero edges; the
edge list is left untouched. -/
def remove_invalid_nodes (g : Graph) : Graph :=
  { g with
    nodes := g.nodes.filter (fun n =>
      validate_node n || (g.nodes.length == 1 && g.edges.length == 0)) }

/-- Source `Graph._build_graph` and `Graph.__init__`: the whole construction
pipeline — build nodes, build edges, link edges into both endpoint nodes,
build node parameters (with LLM injection), prune invalid nodes. -/
def build_graph (fileTools : List String) (typeMap : List (String × NodeVariant))
    (bp : Node → Params) (nodeSpecs : List NodeSpec) (edgeSpecs : List EdgeSpec) :
    Except GraphError Graph :=
  match build_nodes fileTools typeMap nodeSpecs with
  | .error e => .error e
  | .ok nodes0 =>
    match build_edges nodes0 edgeSpecs with
    | .error e => .error e
    | .ok edges =>
      let nodes1 := link_edges nodes0 edges
      let nodes2 := build_node_params bp nodes1
      .ok (remove_invalid_nodes { nodes := nodes2, edges := edges })

/-- Source `Graph.get_node`: the first node with the given id, `none` when no node
matches (never an error). -/
def Graph.get_node (g : Graph) (node_id : String) : Option Node :=
  g.nodes.find? (fun n => n.id = node_id)

/-- One step of the `Graph.get_node_neighbors` loop's dict bookkeeping:
`if neighbor not in neighbors: neighbors[neighbor] = 0; neighbors[neighbor] += 1`
on an insertion-ordered association list from node (index) to count. -/
def bump (m : List (Nat × Nat)) (k : Nat) : List (Nat × Nat) :=
  match m with
  | [] => [(k, 1)]
  | (k1, c) :: rest =>
    if k1 = k then (k1, c + 1) :: rest else (k1, c) :: bump rest k

/-- The per-edge body of `Graph.get_node_neighbors`: tally the other
endpoint when the edge touches the node, the target branch only being taken
when the source branch did not match. -/
def step_neighbors (i : Nat) (acc : List (Nat × Nat)) (e : Edge) : List (Nat × Nat) :=
  if e.source = i then bump acc e.target
  else if e.target = i then bump acc e.source
  else acc

/-- Source `Graph.get_node_neighbors`: scan the edge list, tallying the other
endpoint of every edge that touches the given node. -/
def Graph.get_node_neighbors (g : Graph) (i : Nat) : List (Nat × Nat) :=
  g.edges.foldl (step_neighbors i) []

/-- Source `Graph.get_children_by_node_type`: `[node]` when the requested type is
the node's own `data.type` or one of its `data.node.base_classes` (the
latter consulted only when the `node` key is present), else `[]`.  Only the
argument node is inspected.  The raw key accesses are embedded as
`Except`. -/
def get_children_by_node_type (node : Node) (node_type : String) :
    Except GraphError (List Node) :=
  match node.data.type_ with
  | none => .error (.keyError "type")
  | some ty =>
    match node.data.node with
    | none => .ok (if node_type ∈ [ty] then [node] else [])
    | some info =>
      match info.base_classes with
      | none => .error (.keyError "base_classes")
      | some bcs => .ok (if node_type ∈ ty :: bcs then [node] else [])

/-- The number of edges between `n` and `m` in either direction, counting
parallel edges. -/
def incident_count (n m : Nat) (es : List Edge) : Nat :=
  es.countP (fun e => decide ((e.source = n ∧ e.target = m) ∨ (e.source = m ∧ e.target = n)))

/-- The number of self-loop edges at `n`. -/
def self_loop_count (n : Nat) (es : List Edge) : Nat :=
  es.countP (fun e => decide (e.source = n ∧ e.target = n))

/-- The exact tally `get_node_neighbors` accumulates for key `k` while
scanning for node `i`: the target branch runs only when the source branch
did not match. -/
def contrib (i k : Nat) (e : Edge) : Bool :=
  decide ((e.source = i ∧ e.target = k) ∨ (e.source ≠ i ∧ e.target = i ∧ e.source = k))

/-- Lookup in the insertion-ordered neighbor-count mapping. -/
def lookup_neighbor (m : List (Nat × Nat)) (k : Nat) : Option Nat :=
  match m with
  | [] => none
  | (k1, c) :: rest => if k1 = k then some c else lookup_neighbor rest k

/-- A well-formed NodeSpec fixture with every key present. -/
def spec_full (i : String) : NodeSpec :=
  { id := i
    data := some
      { type_ := some "T"
        node := some { template := some { t_type := some "LT" }, base_classes := some [] } } }

/-- A NodeSpec fixture with `data` and `data.type` present but no `node`
key under `data`. -/
def spec_no_node : NodeSpec :=
  { id := "n1", data := some { type_ := some "SomeType", node := none } }

/-- A trivial per-node parameter-build step. -/
def bp_empty : Node → Params := fun _ => []

/-- A constructed-Node fixture with a chosen id and variant. -/
def node_fix (i : String) (v : NodeVariant) : Node :=
  { id := i
    data := { type_ := some "T", node := none }
    variant := v
    params := []
    edges := [] }

/-- A constructed-Node fixture whose `data` declares base classes. -/
def node_bc : Node :=
  { id := "X"
    data :=
      { type_ := some "AgentNode"
        node := some { template := some { t_type := some "llm_chain" }
                       base_classes := some ["BaseAgent", "Tool"] } }
    variant := NodeVariant.Generic
    params := []
    edges := [] }

/-! ### Helper lemmas: neighbor tallying -/

theorem lookup_bump_self (m : List (Nat × Nat)) (k : Nat) :
    lookup_neighbor (bump m k) k = some ((lookup_neighbor m k).getD 0 + 1) := by
  induction m with
  | nil => simp [bump, lookup_neighbor]
  | cons hd rest ih =>
    obtain ⟨k1, c⟩ := hd
    by_cases h : k1 = k
    · simp [bump, lookup_neighbor, h]
    · simp [bump, lookup_neighbor, h, ih]

theorem lookup_bump_other (m : List (Nat × Nat)) (k j : Nat) (h : j ≠ k) :
    lookup_neighbor (bump m k) j = lookup_neighbor m j := by
  have hkj : ¬(k = j) := fun hh => h hh.symm
  induction m with
  | nil => simp [bump, lookup_neighbor, hkj]
  | cons hd rest ih =>
    obtain ⟨k1, c⟩ := hd
    by_cases h1 : k1 = k
    · simp [bump, lookup_neighbor, h1, hkj]
    · simp [bump, lookup_neighbor, h1, ih]

theorem step_lookup (i k : Nat) (acc : List (Nat × Nat)) (e : Edge) :
    lookup_neighbor (step_neighbors i acc e) k =
      if contrib i k e then some ((lookup_neighbor acc k).getD 0 + 1)
      else lookup_neighbor acc k := by
  obtain ⟨s, t⟩ := e
  simp only [step_neighbors, contrib]
  by_cases hs : s = i
  · subst hs
    by_cases ht : t = k
    · subst ht
      simp [lookup_bump_self]
    · simp [ht, lookup_bump_other acc t k (fun hh => ht hh.symm)]
  · by_cases ht : t = i
    · subst ht
      by_cases hsk : s = k
      · subst hsk
        simp [hs, lookup_bump_self]
      · simp [hs, hsk, lookup_bump_other acc s k (fun hh => hsk hh.symm)]
    · simp [hs, ht]

theorem step_getD (i k : Nat) (acc : List (Nat × Nat)) (e : Edge) :
    (lookup_neighbor (step_neighbors i acc e) k).getD 0 =
      (lookup_neighbor acc k).getD 0 + (if contrib i k e then 1 else 0) := by
  rw [step_lookup]
  by_cases hc : contrib i k e <;> simp [hc]

theorem step_none (i k : Nat) (acc : List (Nat × Nat)) (e : Edge) :
    lookup_neighbor (step_neighbors i acc e) k = none ↔
      (lookup_neighbor acc k = none ∧ contrib i k e = false) := by
  rw [step_lookup]
  by_cases hc : contrib i k e <;> simp [hc]

theorem foldl_lookup_getD (i k : Nat) (es : List Edge) : ∀ acc : List (Nat × Nat),
    (lookup_neighbor (es.foldl (step_neighbors i) acc) k).getD 0 =
      (lookup_neighbor acc k).getD 0 + es.countP (contrib i k) := by
  induction es with
  | nil => intro acc; simp
  | cons e es ih =>
    intro acc
    rw [List.foldl_cons, ih, step_getD, List.countP_cons]
    by_cases hc : contrib i k e <;> (simp [hc]; try omega)

theorem foldl_lookup_none (i k : Nat) (es : List Edge) : ∀ acc : List (Nat × Nat),
    lookup_neighbor (es.foldl (step_neighbors i) acc) k = none ↔
      (lookup_neighbor acc k = none ∧ es.countP (contrib i k) = 0) := by
  induction es with
  | nil => intro acc; simp
  | cons e es ih =>
    intro acc
    rw [List.foldl_cons, ih, step_none, List.countP_cons]
    by_cases hc : contrib i k e <;> simp [hc]

theorem neighbors_getD (g : Graph) (n k : Nat) :
    (lookup_neighbor (g.get_node_neighbors n) k).getD 0 = g.edges.countP (contrib n k) := by
  have h := foldl_lookup_getD n k g.edges []
  simpa [Graph.get_node_neighbors, lookup_neighbor] using h

theorem neighbors_none (g : Graph) (n k : Nat) :
    lookup_neighbor (g.get_node_neighbors n) k = none ↔ g.edges.countP (contrib n k) = 0 := by
  have h := foldl_lookup_none n k g.edges []
  simpa [Graph.get_node_neighbors, lookup_neighbor] using h

theorem contrib_count_eq_incident_count (g : Graph) (n m : Nat) (h : m ≠ n) :
    g.edges.countP (contrib n m) = incident_count n m g.edges := by
  unfold incident_count
  apply List.countP_congr
  intro e _
  rcases e with ⟨s, t⟩
  unfold contrib
  dsimp only
  simp only [decide_eq_true_eq]
  constructor
  · rintro (⟨h1, h2⟩ | ⟨h1, h2, h3⟩)
    · exact Or.inl ⟨h1, h2⟩
    · exact Or.inr ⟨h3, h2⟩
  · rintro (⟨h1, h2⟩ | ⟨h1, h2⟩)
    · exact Or.inl ⟨h1, h2⟩
    · exact Or.inr ⟨fun hh => h (h1.symm.trans hh), h2, h1⟩

theorem contrib_count_self_eq_loop_count (g : Graph) (n : Nat) :
    g.edges.countP (contrib n n) = self_loop_count n g.edges := by
  unfold self_loop_count
  apply List.countP_congr
  intro e _
  rcases e with ⟨s, t⟩
  unfold contrib
  dsimp only
  simp only [decide_eq_true_eq]
  constructor
  · rintro (⟨h1, h2⟩ | ⟨h1, h2, h3⟩)
    · exact ⟨h1, h2⟩
    · exact absurd h3 h1
  · rintro ⟨h1, h2⟩
    exact Or.inl ⟨h1, h2⟩

/-! ### Helper lemmas: parameter injection -/

theorem lookup_insert_param_self (ps : Params) (k : String) (v : PVal) :
    lookup_param (insert_param ps k v) k = some v := by
  induction ps with
  | nil => simp [insert_param, lookup_param]
  | cons hd rest ih =>
    obtain ⟨k1, v1⟩ := hd
    by_cases h : k1 = k
    · simp [insert_param, lookup_param, h]
    · simp [insert_param, lookup_param, h, ih]

theorem last_idx_where_eq_none (p : Node → Bool) (l : List Node) :
    last_idx_where p l = none ↔ ∀ n ∈ l, p n = false := by
  induction l with
  | nil => simp [last_idx_where]
  | cons n rest ih =>
    rw [last_idx_where]
    cases h : last_idx_where p rest with
    | some j =>
      constructor
      · intro hcontra
        exact Option.noConfusion hcontra
      · intro hall
        have hnone : last_idx_where p rest = none :=
          ih.mpr (fun x hx => hall x (List.mem_cons_of_mem n hx))
        rw [hnone] at h
        exact Option.noConfusion h
    | none =>
      by_cases hp : p n
      · constructor
        · intro hcontra
          rw [if_pos hp] at hcontra
          exact Option.noConfusion hcontra
        · intro hall
          have hfalse := hall n (List.mem_cons_self n rest)
          rw [hp] at hfalse
          exact Bool.noConfusion hfalse
      · constructor
        · intro _ x hx
          rcases List.mem_cons.mp hx with rfl | hx2
          · exact Bool.eq_false_iff.mpr hp
          · exact ih.mp h x hx2
        · intro _
          rw [if_neg hp]

theorem last_idx_where_eq_some (p : Node → Bool) :
    ∀ (l : List Node) (j : Nat), last_idx_where p l = some j →
      ∃ n, l.get? j = some n ∧ p n = true ∧
        ∀ k m, j < k → l.get? k = some m → p m = false := by
  intro l
  induction l with
  | nil => intro j hj; simp [last_idx_where] at hj
  | cons n rest ih =>
    intro j hj
    cases h : last_idx_where p rest with
    | some j0 =>
      rw [last_idx_where, h] at hj
      obtain rfl : j = j0 + 1 := by exact (Option.some_inj.mp hj).symm
      obtain ⟨w, hw1, hw2, hw3⟩ := ih j0 h
      refine ⟨w, by simpa using hw1, hw2, ?_⟩
      intro k m hk hm
      match k, hk with
      | k0 + 1, hk =>
        exact hw3 k0 m (Nat.lt_of_succ_lt_succ hk) (by simpa using hm)
    | none =>
      rw [last_idx_where, h] at hj
      by_cases hp : p n
      · rw [if_pos hp] at hj
        obtain rfl : j = 0 := (Option.some_inj.mp hj).symm
        refine ⟨n, rfl, hp, ?_⟩
        intro k m hk hm
        match k, hk with
        | k0 + 1, _ =>
          have hmem : m ∈ rest := List.get?_mem (by simpa using hm)
          exact (last_idx_where_eq_none p rest).mp h m hmem
      · rw [if_neg hp] at hj
        exact absurd hj (by simp)

theorem last_idx_where_map (p : Node → Bool) (f : Node → Node)
    (hf : ∀ n, p (f n) = p n) (l : List Node) :
    last_idx_where p (l.map f) = last_idx_where p l := by
  induction l with
  | nil => simp [last_idx_where]
  | cons n rest ih => simp [last_idx_where, ih, hf]

theorem is_llm_params_update (bp : Node → Params) (n : Node) :
    is_llm { n with params := bp n } = is_llm n := rfl

/-! ### Helper lemmas: node lookup -/

theorem find_node_idx_eq_none (nodes : List Node) (node_id : String) :
    find_node_idx nodes node_id = none ↔ ∀ n ∈ nodes, n.id ≠ node_id := by
  induction nodes with
  | nil => simp [find_node_idx]
  | cons n rest ih =>
    by_cases h : n.id = node_id
    · simp [find_node_idx, h]
    · simp [find_node_idx, h, ih]

theorem find_first (node_id : String) : ∀ l : List Node,
    (l.find? (fun n => n.id = node_id) = none ↔ ∀ n ∈ l, n.id ≠ node_id) ∧
    (∀ n, l.find? (fun n => n.id = node_id) = some n →
      n.id = node_id ∧ ∃ l1 l2, l = l1 ++ n :: l2 ∧ ∀ m ∈ l1, m.id ≠ node_id) := by
  intro l
  induction l with
  | nil => simp
  | cons a l ih =>
    by_cases ha : a.id = node_id
    · rw [List.find?_cons_of_pos _ (by simpa using ha)]
      constructor
      · simp [ha]
      · intro n hn
        obtain rfl : a = n := Option.some_inj.mp hn
        exact ⟨ha, [], l, rfl, by simp⟩
    · rw [List.find?_cons_of_neg _ (by simpa using ha)]
      constructor
      · rw [ih.1]
        simp [ha]
      · intro n hn
        obtain ⟨h1, l1, l2, hl, hfront⟩ := ih.2 n hn
        refine ⟨h1, a :: l1, l2, by simp [hl], ?_⟩
        intro m hm
        rcases List.mem_cons.mp hm with rfl | hm2
        · exact ha
        · exact hfront m hm2

/-! ### Helper lemmas: node and edge building -/

theorem build_node_id (fileTools : List String) (typeMap : List (String × NodeVariant))
    (spec : NodeSpec) (n : Node) (h : build_node fileTools typeMap spec = .ok n) :
    n.id = spec.id := by
  unfold build_node at h
  repeat' split at h
  all_goals try exact Except.noConfusion h
  injection h with h2
  subst h2
  rfl

theorem build_nodes_ids (fileTools : List String) (typeMap : List (String × NodeVariant)) :
    ∀ (specs : List NodeSpec) (ns : List Node),
      build_nodes fileTools typeMap specs = .ok ns →
      ns.map Node.id = specs.map NodeSpec.id := by
  intro specs
  induction specs with
  | nil =>
    intro ns h
    rw [build_nodes] at h
    injection h with h2
    subst h2
    rfl
  | cons s rest ih =>
    intro ns h
    rw [build_nodes] at h
    cases hbn : build_node fileTools typeMap s with
    | error e =>
      rw [hbn] at h
      exact Except.noConfusion h
    | ok n =>
      rw [hbn] at h
      cases hbs : build_nodes fileTools typeMap rest with
      | error e =>
        rw [hbs] at h
        exact Except.noConfusion h
      | ok ns0 =>
        rw [hbs] at h
        injection h with h2
        subst h2
        simp only [List.map_cons]
        rw [build_node_id fileTools typeMap s n hbn, ih ns0 hbs]

theorem build_edges_dangling (nodes : List Node) :
    ∀ edgeSpecs : List EdgeSpec,
      (∃ e ∈ edgeSpecs,
        find_node_idx nodes e.source = none ∨ find_node_idx nodes e.target = none) →
      ∃ missing,
        (build_edges nodes edgeSpecs = .error (.sourceNotFound missing) ∨
         build_edges nodes edgeSpecs = .error (.targetNotFound missing)) ∧
        find_node_idx nodes missing = none := by
  intro es hbad
  induction es with
  | nil => simp at hbad
  | cons e rest ih =>
    cases hs : find_node_idx nodes e.source with
    | none =>
      refine ⟨e.source, Or.inl ?_, hs⟩
      simp [build_edges, hs]
    | some s =>
      cases ht : find_node_idx nodes e.target with
      | none =>
        refine ⟨e.target, Or.inr ?_, ht⟩
        simp [build_edges, hs, ht]
      | some t =>
        have hbad2 : ∃ e2 ∈ rest,
            find_node_idx nodes e2.source = none ∨ find_node_idx nodes e2.target = none := by
          obtain ⟨e2, he2, hcase⟩ := hbad
          rcases List.mem_cons.mp he2 with rfl | hmem
          · rcases hcase with hc | hc
            · rw [hs] at hc
              exact Option.noConfusion hc
            · rw [ht] at hc
              exact Option.noConfusion hc
          · exact ⟨e2, hmem, hcase⟩
        obtain ⟨missing, hcase, hmiss⟩ := ih hbad2
        refine ⟨missing, ?_, hmiss⟩
        rcases hcase with hc | hc
        · exact Or.inl (by simp [build_edges, hs, ht, hc])
        · exact Or.inr (by simp [build_edges, hs, ht, hc])

/-! ### Claim theorems -/

/-- C5: variant resolution is a total function of the two type strings with
this precedence: the file-tool set first, then `node_type` in the
type-to-variant table, then the fallback `node_lc_type` in the table, else
Generic.  Totality holds by construction (`get_node_class` is a total
function). -/
theorem claim_C5_dispatch_precedence (fileTools : List String)
    (typeMap : List (String × NodeVariant)) (node_type node_lc_type : String) :
    (node_type ∈ fileTools →
      get_node_class fileTools typeMap node_type node_lc_type = NodeVariant.FileTool) ∧
    (node_type ∉ fileTools → ∀ v, typeMap.lookup node_type = some v →
      get_node_class fileTools typeMap node_type node_lc_type = v) ∧
    (node_type ∉ fileTools → typeMap.lookup node_type = none →
      ∀ v, typeMap.lookup node_lc_type = some v →
      get_node_class fileTools typeMap node_type node_lc_type = v) ∧
    (node_type ∉ fileTools → typeMap.lookup node_type = none →
      typeMap.lookup node_lc_type = none →
      get_node_class fileTools typeMap node_type node_lc_type = NodeVariant.Generic) := by
  refine ⟨?_, ?_, ?_, ?_⟩
  · intro h
    simp [get_node_class, h]
  · intro h v hv
    simp [get_node_class, h, hv]
  · intro h h1 v hv
    simp [get_node_class, h, h1, hv]
  · intro h h1 h2
    simp [get_node_class, h, h1, h2]

/-- Witness for C5: one concrete input per precedence branch. -/
theorem claim_C5_witness :
    get_node_class ["CSVLoader"] [] "CSVLoader" "x" = NodeVariant.FileTool ∧
    get_node_class [] [("ZeroShotPrompt", NodeVariant.Toolkit)] "ZeroShotPrompt" "x" =
      NodeVariant.Toolkit ∧
    get_node_class [] [("llm_chain", NodeVariant.LanguageModel)] "unknown" "llm_chain" =
      NodeVariant.LanguageModel ∧
    get_node_class [] [] "unknown" "other" = NodeVariant.Generic :=
  ⟨(claim_C5_dispatch_precedence _ _ _ _).1 (by simp),
   (claim_C5_dispatch_precedence _ _ _ _).2.1 (by simp) _ (by decide),
   (claim_C5_dispatch_precedence _ _ _ _).2.2.1 (by simp) (by decide) _ (by decide),
   (claim_C5_dispatch_precedence _ _ _ _).2.2.2 (by simp) (by decide) (by decide)⟩

/-- C7: pruning modifies only the node list — the edge list after
`remove_invalid_nodes` is the very same list as before, so an edge whose
endpoint node was pruned is still present and still references it. -/
theorem claim_C7_prune_preserves_edges :
    ∀ g : Graph, (remove_invalid_nodes g).edges = g.edges :=
  fun _ => rfl

/-- C3: pruning keeps a node iff it has at least one incident edge or the
whole pre-pruning graph is the singleton case (one node, zero edges);
concretely, one NodeSpec and zero EdgeSpecs retains the node, and two
unconnected NodeSpecs with zero EdgeSpecs prune to the empty node list. -/
theorem claim_C3_prune_keep_iff :
    (∀ (g : Graph) (n : Node),
      n ∈ (remove_invalid_nodes g).nodes ↔
        n ∈ g.nodes ∧
          (0 < n.edges.length ∨ (g.nodes.length = 1 ∧ g.edges.length = 0))) ∧
    (build_graph [] [] bp_empty [spec_full "A"] []).map (fun g => g.nodes.length) =
      .ok 1 ∧
    (build_graph [] [] bp_empty [spec_full "A", spec_full "B"] []).map Graph.nodes =
      .ok [] := by
  refine ⟨?_, rfl, rfl⟩
  intro g n
  rw [remove_invalid_nodes]
  simp [List.mem_filter, validate_node]

/-- C9: `get_node` returns the first node in list order whose id matches,
and a null result — never an error — when no node matches. -/
theorem claim_C9_get_node (g : Graph) (node_id : String) :
    (Graph.get_node g node_id = none ↔ ∀ n ∈ g.nodes, n.id ≠ node_id) ∧
    (∀ n, Graph.get_node g node_id = some n →
      n.id = node_id ∧ ∃ l1 l2, g.nodes = l1 ++ n :: l2 ∧ ∀ m ∈ l1, m.id ≠ node_id) :=
  find_first node_id g.nodes

/-- Witness for C9: a concrete two-node graph where the lookup succeeds on
the second node. -/
theorem claim_C9_witness :
    (node_fix "B" NodeVariant.Toolkit).id = "B" ∧
    ∃ l1 l2,
      [node_fix "A" NodeVariant.Generic, node_fix "B" NodeVariant.Toolkit] =
        l1 ++ (node_fix "B" NodeVariant.Toolkit) :: l2 ∧
      ∀ m ∈ l1, m.id ≠ "B" :=
  (claim_C9_get_node
    ⟨[node_fix "A" NodeVariant.Generic, node_fix "B" NodeVariant.Toolkit], []⟩ "B").2
    (node_fix "B" NodeVariant.Toolkit) (by rfl)

/-- C10: a self-loop edge contributes exactly 1 (not 2) to the count of a
node as its own neighbor, because the target branch of the tally only runs
when the source branch did not match: the tally of `n` as its own neighbor
is exactly the number of self-loop edges at `n`. -/
theorem claim_C10_self_loop_single_count :
    (∀ (g : Graph) (n : Nat),
      (lookup_neighbor (g.get_node_neighbors n) n).getD 0 = self_loop_count n g.edges) ∧
    lookup_neighbor (Graph.get_node_neighbors ⟨[], [⟨0, 0⟩]⟩ 0) 0 = some 1 := by
  refine ⟨?_, rfl⟩
  intro g n
  rw [neighbors_getD, contrib_count_self_eq_loop_count]

/-- C6: for a node `n` and a distinct node `m`, the neighbors mapping of `n`
contains `m` iff some edge connects them, and then its count is the number
of edges between them in either direction, counting parallel edges. -/
theorem claim_C6_neighbor_counts (g : Graph) (n m : Nat) (hnm : m ≠ n) :
    (lookup_neighbor (g.get_node_neighbors n) m = none ↔
      incident_count n m g.edges = 0) ∧
    (∀ c, lookup_neighbor (g.get_node_neighbors n) m = some c →
      c = incident_count n m g.edges) ∧
    (0 < incident_count n m g.edges →
      lookup_neighbor (g.get_node_neighbors n) m = some (incident_count n m g.edges)) := by
  have hcount := neighbors_getD g n m
  rw [contrib_count_eq_incident_count g n m hnm] at hcount
  have hnone := neighbors_none g n m
  rw [contrib_count_eq_incident_count g n m hnm] at hnone
  refine ⟨hnone, ?_, ?_⟩
  · intro c hc
    rw [hc] at hcount
    simpa using hcount
  · intro hpos
    cases hl : lookup_neighbor (g.get_node_neighbors n) m with
    | none =>
      have h0 := hnone.mp hl
      omega
    | some c =>
      rw [hl] at hcount
      simp only [Option.getD_some] at hcount
      rw [← hcount]

/-- Witness for C6: two parallel edges from node 0 to node 1 give count 2. -/
theorem claim_C6_witness :
    lookup_neighbor (Graph.get_node_neighbors ⟨[], [⟨0, 1⟩, ⟨0, 1⟩]⟩ 0) 1 = some 2 := by
  have h := (claim_C6_neighbor_counts ⟨[], [⟨0, 1⟩, ⟨0, 1⟩]⟩ 0 1 (by decide)).2.2 (by decide)
  exact h.trans (by rfl)

/-- C1 counterexample: a node list containing a NodeSpec with `data` and
`data.type` present but no `node` key under `data` makes graph construction
raise a `KeyError` for `"node"` — it does not fall through to Generic. -/
theorem claim_C1_counterexample :
    build_graph [] [] bp_empty [spec_no_node] [] = .error (.keyError "node") := rfl

/-- C1, amended: node construction does not tolerate absence of the
`data.node.template._type` path — whichever of the keys `node`, `template`
or `_type` is missing, construction raises a `KeyError` naming it, even with
`data` and `data.type` present.  Only a present-but-unrecognized pair of
type strings falls through to the Generic variant. -/
theorem claim_C1_missing_type_path_raises (fileTools : List String)
    (typeMap : List (String × NodeVariant)) (spec : NodeSpec) (d : NodeDataSpec)
    (ty : String) (hd : spec.data = some d) (ht : d.type_ = some ty) :
    (d.node = none → build_node fileTools typeMap spec = .error (.keyError "node")) ∧
    (∀ info, d.node = some info → info.template = none →
      build_node fileTools typeMap spec = .error (.keyError "template")) ∧
    (∀ info tmpl, d.node = some info → info.template = some tmpl → tmpl.t_type = none →
      build_node fileTools typeMap spec = .error (.keyError "_type")) ∧
    (∀ info tmpl lc, d.node = some info → info.template = some tmpl →
      tmpl.t_type = some lc → ty ∉ fileTools → typeMap.lookup ty = none →
      typeMap.lookup lc = none →
      build_node fileTools typeMap spec =
        .ok { id := spec.id, data := d, variant := NodeVariant.Generic
              params := [], edges := [] }) := by
  refine ⟨?_, ?_, ?_, ?_⟩
  · intro hn
    simp [build_node, hd, ht, hn]
  · intro info hn htm
    simp [build_node, hd, ht, hn, htm]
  · intro info tmpl hn htm htt
    simp [build_node, hd, ht, hn, htm, htt]
  · intro info tmpl lc hn htm htt hft h1 h2
    simp [build_node, hd, ht, hn, htm, htt, get_node_class, hft, h1, h2]

/-- Witness for the amended C1: the missing-`node` branch and the
Generic-fall-through branch at concrete inputs. -/
theorem claim_C1_witness :
    build_node [] [] spec_no_node = .error (.keyError "node") ∧
    build_node [] [] (spec_full "A") =
      .ok { id := "A"
            data := { type_ := some "T"
                      node := some { template := some { t_type := some "LT" }
                                     base_classes := some [] } }
            variant := NodeVariant.Generic, params := [], edges := [] } :=
  ⟨(claim_C1_missing_type_path_raises [] [] spec_no_node _ "SomeType" rfl rfl).1 rfl,
   (claim_C1_missing_type_path_raises [] [] (spec_full "A") _ "T" rfl rfl).2.2.2
     _ _ "LT" rfl rfl rfl (by simp) rfl rfl⟩

/-- C8: `get_children_by_node_type` returns `[node]` exactly when the
requested type equals the node's declared `data.type` or one of its declared
`data.node.base_classes`, else `[]`; it takes no graph argument at all, so
it inspects only the given node. -/
theorem claim_C8_children_by_type (node : Node) (node_type ty : String)
    (hty : node.data.type_ = some ty) :
    (node.data.node = none →
      get_children_by_node_type node node_type =
        .ok (if node_type = ty then [node] else [])) ∧
    (∀ info bcs, node.data.node = some info → info.base_classes = some bcs →
      get_children_by_node_type node node_type =
        .ok (if node_type = ty ∨ node_type ∈ bcs then [node] else [])) := by
  constructor
  · intro hn
    simp [get_children_by_node_type, hty, hn]
  · intro info bcs hn hb
    simp [get_children_by_node_type, hty, hn, hb, List.mem_cons]

/-- Witness for C8: a concrete node matched through its base classes and
missed on an unrelated type string. -/
theorem claim_C8_witness :
    get_children_by_node_type node_bc "Tool" = .ok [node_bc] ∧
    get_children_by_node_type node_bc "Other" = .ok [] :=
  ⟨((claim_C8_children_by_type node_bc "Tool" "AgentNode" rfl).2 _ _ rfl rfl).trans
      (congrArg Except.ok (by decide)),
   ((claim_C8_children_by_type node_bc "Other" "AgentNode" rfl).2 _ _ rfl rfl).trans
      (congrArg Except.ok (by decide))⟩

/-- C2: after the parameter-build phase, if at least one LanguageModel node
exists then every Toolkit node's `params` holds, under the fixed key
`"llm"`, the last LanguageModel node in node-list order (later occurrences
overwrite earlier ones); if no LanguageModel node exists, no node's `params`
gains that key from this phase. -/
theorem claim_C2_llm_injection (bp : Node → Params) (nodes : List Node) :
    ((∃ x ∈ nodes, x.variant = NodeVariant.LanguageModel) →
      ∃ llm lnode,
        nodes.get? llm = some lnode ∧ lnode.variant = NodeVariant.LanguageModel ∧
        (∀ j m, llm < j → nodes.get? j = some m →
          m.variant ≠ NodeVariant.LanguageModel) ∧
        (∀ i n, nodes.get? i = some n → n.variant = NodeVariant.Toolkit →
          ∃ m, (build_node_params bp nodes).get? i = some m ∧
            lookup_param m.params "llm" = some (PVal.nodeRef llm))) ∧
    ((∀ x ∈ nodes, x.variant ≠ NodeVariant.LanguageModel) →
      ∀ i n, nodes.get? i = some n →
        ∃ m, (build_node_params bp nodes).get? i = some m ∧
          lookup_param m.params "llm" = lookup_param (bp n) "llm") := by
  have hmap : last_idx_where is_llm (nodes.map (fun n => { n with params := bp n })) =
      last_idx_where is_llm nodes :=
    last_idx_where_map is_llm (fun n => { n with params := bp n }) (fun n => rfl) nodes
  constructor
  · intro hex
    cases hcase : last_idx_where is_llm nodes with
    | none =>
      exfalso
      obtain ⟨x, hx, hv⟩ := hex
      have hfalse := (last_idx_where_eq_none is_llm nodes).mp hcase x hx
      rw [is_llm] at hfalse
      simp [hv] at hfalse
    | some L =>
      obtain ⟨lnode, hget, hllm, hafter⟩ := last_idx_where_eq_some is_llm nodes L hcase
      refine ⟨L, lnode, hget, by simpa [is_llm] using hllm, ?_, ?_⟩
      · intro j m hj hgetj
        have hf := hafter j m hj hgetj
        simpa [is_llm] using hf
      · intro i n hget_i htk
        refine ⟨{ n with params := insert_param (bp n) "llm" (PVal.nodeRef L) }, ?_,
          lookup_insert_param_self _ _ _⟩
        simp only [build_node_params, hmap, hcase]
        rw [List.get?_map, List.get?_map, hget_i]
        simp [is_toolkit, htk]
  · intro hnone i n hget_i
    have hcase : last_idx_where is_llm nodes = none := by
      rw [last_idx_where_eq_none]
      intro x hx
      simp only [is_llm, decide_eq_false_iff_not]
      exact hnone x hx
    refine ⟨{ n with params := bp n }, ?_, rfl⟩
    simp only [build_node_params, hmap, hcase]
    rw [List.get?_map, hget_i]
    rfl

/-- Witness for C2: one LanguageModel node followed by one Toolkit node; the
Toolkit node's `params` receives the LanguageModel node under `"llm"`. -/
theorem claim_C2_witness :
    ∃ llm lnode,
      [node_fix "L" NodeVariant.LanguageModel,
        node_fix "K" NodeVariant.Toolkit].get? llm = some lnode ∧
      lnode.variant = NodeVariant.LanguageModel ∧
      (∀ j m, llm < j →
        [node_fix "L" NodeVariant.LanguageModel,
          node_fix "K" NodeVariant.Toolkit].get? j = some m →
        m.variant ≠ NodeVariant.LanguageModel) ∧
      (∀ i n,
        [node_fix "L" NodeVariant.LanguageModel,
          node_fix "K" NodeVariant.Toolkit].get? i = some n →
        n.variant = NodeVariant.Toolkit →
        ∃ m, (build_node_params bp_empty
            [node_fix "L" NodeVariant.LanguageModel,
              node_fix "K" NodeVariant.Toolkit]).get? i = some m ∧
          lookup_param m.params "llm" = some (PVal.nodeRef llm)) :=
  (claim_C2_llm_injection bp_empty _).1
    ⟨node_fix "L" NodeVariant.LanguageModel, by simp, rfl⟩

/-- C4: when node building succeeds and some EdgeSpec names a source or
target id that matches no NodeSpec id, graph construction fails with an
error naming a missing id — `sourceNotFound` and `targetNotFound` are
distinct messages — rather than skipping the edge. -/
theorem claim_C4_dangling_edge_raises (fileTools : List String)
    (typeMap : List (String × NodeVariant)) (bp : Node → Params)
    (specs : List NodeSpec) (edgeSpecs : List EdgeSpec) (nodes : List Node)
    (hn : build_nodes fileTools typeMap specs = .ok nodes)
    (hbad : ∃ e ∈ edgeSpecs,
      (∀ s ∈ specs, s.id ≠ e.source) ∨ (∀ s ∈ specs, s.id ≠ e.target)) :
    ∃ missing,
      (build_graph fileTools typeMap bp specs edgeSpecs =
        .error (.sourceNotFound missing) ∨
       build_graph fileTools typeMap bp specs edgeSpecs =
        .error (.targetNotFound missing)) ∧
      ∀ s ∈ specs, s.id ≠ missing := by
  have hids := build_nodes_ids fileTools typeMap specs nodes hn
  have htrans : ∀ x : String, (∀ s ∈ specs, s.id ≠ x) → ∀ n ∈ nodes, n.id ≠ x := by
    intro x hx n hni
    have hmem : n.id ∈ specs.map NodeSpec.id := by
      rw [← hids]
      exact List.mem_map_of_mem Node.id hni
    obtain ⟨s, hs, hsid⟩ := List.mem_map.mp hmem
    intro hcontra
    exact hx s hs (by rw [hsid, hcontra])
  have htrans2 : ∀ x : String, (∀ n ∈ nodes, n.id ≠ x) → ∀ s ∈ specs, s.id ≠ x := by
    intro x hx s hsi
    have hmem : s.id ∈ nodes.map Node.id := by
      rw [hids]
      exact List.mem_map_of_mem NodeSpec.id hsi
    obtain ⟨n, hn2, hnid⟩ := List.mem_map.mp hmem
    intro hcontra
    exact hx n hn2 (by rw [hnid, hcontra])
  have hbad2 : ∃ e ∈ edgeSpecs,
      find_node_idx nodes e.source = none ∨ find_node_idx nodes e.target = none := by
    obtain ⟨e, he, hcase⟩ := hbad
    refine ⟨e, he, ?_⟩
    rcases hcase with hc | hc
    · exact Or.inl ((find_node_idx_eq_none nodes e.source).mpr (htrans _ hc))
    · exact Or.inr ((find_node_idx_eq_none nodes e.target).mpr (htrans _ hc))
  obtain ⟨missing, hcase, hmiss⟩ := build_edges_dangling nodes edgeSpecs hbad2
  refine ⟨missing, ?_,
    htrans2 missing ((find_node_idx_eq_none nodes missing).mp hmiss)⟩
  rcases hcase with hc | hc
  · exact Or.inl (by simp [build_graph, hn, hc])
  · exact Or.inr (by simp [build_graph, hn, hc])

/-- Witness for C4: a single well-formed node `"A"` and one edge whose
target `"ZZZ"` matches no NodeSpec id. -/
theorem claim_C4_witness :
    ∃ missing,
      (build_graph [] [] bp_empty [spec_full "A"] [⟨"A", "ZZZ"⟩] =
        .error (.sourceNotFound missing) ∨
       build_graph [] [] bp_empty [spec_full "A"] [⟨"A", "ZZZ"⟩] =
        .error (.targetNotFound missing)) ∧
      ∀ s ∈ [spec_full "A"], s.id ≠ missing :=
  claim_C4_dangling_edge_raises [] [] bp_empty _ _ _ rfl
    ⟨⟨"A", "ZZZ"⟩, by decide, Or.inr (by decide)⟩

end Langflow
